import Mathlib

/-
Verification of the to-do backend (backend/main.go): task data model, the two
storage backends (in-memory map, GCS blob store) and the HTTP handler layer.

Modelling conventions:
- Go errors are strings (the code classifies errors by their message text);
  fallible operations return `Except String α`.
- `time.Time` is modelled as a `Nat` timestamp; JSON bodies arrive already
  parsed, as `Option` of the request structure (`none` = undecodable body).
- A Go `map[string]Task` is an association list `List (String × Task)`;
  a GCS bucket is an association list from object name to blob content, where
  a blob either decodes to a `Task` or is corrupt (JSON decode failure).
- Network faults of the GCS client are not modelled; reads and writes against
  the modelled bucket state succeed, a missing object is the reader error.
-/

namespace TodoApp

/-- Task record (main.go 20-25). `CreatedAt` is modelled as a Nat timestamp. -/
structure Task where
  id : String
  text : String
  completed : Bool
  createdAt : Nat
deriving DecidableEq, Repr

/-- Create-request body (main.go 27-30). -/
structure TaskRequest where
  text : String
  completed : Bool
deriving DecidableEq, Repr

/-- Partial update-request body (main.go 32-35); `none` = field omitted. -/
structure TaskUpdateRequest where
  text : Option String
  completed : Option Bool
deriving DecidableEq, Repr

/-- Lookup in an association list keyed by strings (Go map read `m[k]`). -/
def lookupKey {β : Type} : List (String × β) → String → Option β
  | [], _ => none
  | (k, v) :: rest, key => if k = key then some v else lookupKey rest key

/-- Insert-or-overwrite in an association list (Go map write `m[k] = v`). -/
def upsertKey {β : Type} : List (String × β) → String → β → List (String × β)
  | [], key, v => [(key, v)]
  | (k, w) :: rest, key, v =>
      if k = key then (key, v) :: rest else (k, w) :: upsertKey rest key v

/-- Remove a key from an association list (Go `delete(m, k)`). -/
def eraseKey {β : Type} : List (String × β) → String → List (String × β)
  | [], _ => []
  | (k, w) :: rest, key =>
      if k = key then eraseKey rest key else (k, w) :: eraseKey rest key

/-- State of the in-memory backend (main.go 58-61): the `tasks` map. -/
abbrev InMemoryStorage := List (String × Task)

/-- main.go 69-78: return all values of the map (iteration order abstracted
as the list order). Never fails. -/
def InMemoryStorage.ListTasks (s : InMemoryStorage) : Except String (List Task) :=
  Except.ok (s.map Prod.snd)

/-- main.go 80-86: `s.tasks[task.ID] = task`; never fails. -/
def InMemoryStorage.CreateTask (s : InMemoryStorage) (task : Task) :
    Except String InMemoryStorage :=
  Except.ok (upsertKey s task.id task)

/-- main.go 88-98: error "task not found" when the id is absent, else store. -/
def InMemoryStorage.UpdateTask (s : InMemoryStorage) (task : Task) :
    Except String InMemoryStorage :=
  match lookupKey s task.id with
  | none => Except.error "task not found"
  | some _ => Except.ok (upsertKey s task.id task)

/-- main.go 100-110: error "task not found" when the id is absent, else delete. -/
def InMemoryStorage.DeleteTask (s : InMemoryStorage) (taskID : String) :
    Except String InMemoryStorage :=
  match lookupKey s taskID with
  | none => Except.error "task not found"
  | some _ => Except.ok (eraseKey s taskID)

/-- main.go 112-122: error "task not found" when the id is absent, else return. -/
def InMemoryStorage.GetTask (s : InMemoryStorage) (taskID : String) :
    Except String Task :=
  match lookupKey s taskID with
  | none => Except.error "task not found"
  | some task => Except.ok task

/-- Content of one stored GCS object: either it JSON-decodes to a task, or the
decode fails (corrupt / non-task JSON). -/
inductive Blob where
  | valid (t : Task)
  | corrupt
deriving DecidableEq, Repr

/-- State of the GCS backend: the bucket, object name to content. -/
abbrev GCSStorage := List (String × Blob)

/-- main.go 179, 199, 216: object key for a task id. -/
def objectName (taskID : String) : String := "task-" ++ taskID ++ ".json"

/-- main.go 137-171: enumerate objects under prefix "task-", decode each,
skip blobs that fail to decode. Never fails in the modelled bucket. -/
def GCSStorage.ListTasks (g : GCSStorage) : Except String (List Task) :=
  Except.ok ((g.filter (fun p => String.isPrefixOf "task-" p.1)).filterMap
    (fun p => match p.2 with | Blob.valid t => some t | Blob.corrupt => none))

/-- main.go 173-192: marshal and write the object, overwriting any existing
object of that name. Marshaling a Task never fails. -/
def GCSStorage.CreateTask (g : GCSStorage) (task : Task) :
    Except String GCSStorage :=
  Except.ok (upsertKey g (objectName task.id) (Blob.valid task))

/-- main.go 194-196: `return s.CreateTask(ctx, task)` — overwrite, no
existence check. -/
def GCSStorage.UpdateTask (g : GCSStorage) (task : Task) :
    Except String GCSStorage :=
  GCSStorage.CreateTask g task

/-- main.go 198-213: metadata probe first, error "task not found" when the
object is absent, else delete it. -/
def GCSStorage.DeleteTask (g : GCSStorage) (taskID : String) :
    Except String GCSStorage :=
  match lookupKey g (objectName taskID) with
  | none => Except.error "task not found"
  | some _ => Except.ok (eraseKey g (objectName taskID))

/-- main.go 215-229: reader error (object absent) gives "task not found";
a decode failure gives the distinct message "error decoding task: ..."
(the Go `%v` detail is modelled as a fixed string). -/
def GCSStorage.GetTask (g : GCSStorage) (taskID : String) :
    Except String Task :=
  match lookupKey g (objectName taskID) with
  | none => Except.error "task not found"
  | some (Blob.valid t) => Except.ok t
  | some Blob.corrupt => Except.error "error decoding task: invalid JSON"

/-- Drop trailing slash characters (the first loop of Go path.Base). -/
def dropTrailingSlashes (l : List Char) : List Char :=
  (l.reverse.dropWhile (fun c => c == '/')).reverse

/-- Characters after the last slash (whole list when no slash occurs). -/
def lastComponent (l : List Char) : List Char :=
  (l.reverse.takeWhile (fun c => c != '/')).reverse

/-- Model of Go path.Base: "." for the empty path, strip trailing slashes,
"/" when only slashes remain, else everything after the last slash. -/
def pathBase (s : String) : String :=
  if s = "" then "."
  else
    let l := dropTrailingSlashes s.data
    if l = [] then "/"
    else String.mk (lastComponent l)

/-- main.go 499-504: classify an error message as a GCS permission error. -/
def isPermissionError (e : String) : Bool :=
  pathBase e = "403" || pathBase e = "forbidden" || pathBase e = "permission denied"

example : isPermissionError "task not found" = false := by decide
example : isPermissionError "permission denied" = true := by decide
example : isPermissionError "error decoding task: invalid JSON" = false := by decide
example : isPermissionError "googleapi: Error/403" = true := by decide

/-- The one error message of the in-memory backend is not permission-class. -/
theorem isPermissionError_task_not_found :
    isPermissionError "task not found" = false := by decide

/-- A decode-failure message of the GCS backend is not permission-class. -/
theorem isPermissionError_decode :
    isPermissionError "error decoding task: invalid JSON" = false := by decide

/-- The storage capability interface (main.go 49-55), over a state type `σ`;
state-mutating operations return the new state. -/
structure StorageBackend (σ : Type) where
  ListTasks : σ → Except String (List Task)
  CreateTask : σ → Task → Except String σ
  UpdateTask : σ → Task → Except String σ
  DeleteTask : σ → String → Except String σ
  GetTask : σ → String → Except String Task

/-- The in-memory variant as a `StorageBackend`. -/
def inMemoryBackend : StorageBackend InMemoryStorage where
  ListTasks := InMemoryStorage.ListTasks
  CreateTask := InMemoryStorage.CreateTask
  UpdateTask := InMemoryStorage.UpdateTask
  DeleteTask := InMemoryStorage.DeleteTask
  GetTask := InMemoryStorage.GetTask

/-- The GCS variant as a `StorageBackend`. -/
def gcsBackend : StorageBackend GCSStorage where
  ListTasks := GCSStorage.ListTasks
  CreateTask := GCSStorage.CreateTask
  UpdateTask := GCSStorage.UpdateTask
  DeleteTask := GCSStorage.DeleteTask
  GetTask := GCSStorage.GetTask

/-- An HTTP status code. -/
abbrev HttpStatus := Nat

/-- main.go 446-452 of the updateTask handler: overwrite only the supplied
fields of the existing task. -/
def applyUpdate (req : TaskUpdateRequest) (t : Task) : Task :=
  let t1 := match req.text with
    | some newText => { t with text := newText }
    | none => t
  match req.completed with
    | some c => { t1 with completed := c }
    | none => t1

/-- getTasks handler (main.go 364-380): 500 on a backend error, else 200.
Read-only, so only the status is returned. -/
def getTasks {σ : Type} (B : StorageBackend σ) (s : σ) : HttpStatus :=
  match B.ListTasks s with
  | Except.error _ => 500
  | Except.ok _ => 200

/-- createTask handler (main.go 382-422). `body` is the decoded request body
(`none` = undecodable); `newID` and `now` stand for the generated UUID and
current time. Returns the status and the storage state afterwards. -/
def createTask {σ : Type} (B : StorageBackend σ) (s : σ) (body : Option TaskRequest)
    (newID : String) (now : Nat) : HttpStatus × σ :=
  match body with
  | none => (400, s)
  | some req =>
    if req.text = "" then (400, s)
    else
      match B.CreateTask s (Task.mk newID req.text req.completed now) with
      | Except.error e => (if isPermissionError e then 403 else 500, s)
      | Except.ok s2 => (201, s2)

/-- updateTask handler (main.go 424-471): decode body, fetch the existing
task (any non-permission failure there is answered 404), merge the supplied
fields, store the merged task. -/
def updateTask {σ : Type} (B : StorageBackend σ) (s : σ) (taskID : String)
    (body : Option TaskUpdateRequest) : HttpStatus × σ :=
  match body with
  | none => (400, s)
  | some req =>
    match B.GetTask s taskID with
    | Except.error e => (if isPermissionError e then 403 else 404, s)
    | Except.ok existingTask =>
      match B.UpdateTask s (applyUpdate req existingTask) with
      | Except.error e => (if isPermissionError e then 403 else 500, s)
      | Except.ok s2 => (200, s2)

/-- deleteTask handler (main.go 473-497): 403 on a permission error, 404 on
the exact message "task not found", 500 on any other failure. -/
def deleteTask {σ : Type} (B : StorageBackend σ) (s : σ) (taskID : String) :
    HttpStatus × σ :=
  match B.DeleteTask s taskID with
  | Except.error e =>
      if isPermissionError e then (403, s)
      else if e = "task not found" then (404, s)
      else (500, s)
  | Except.ok s2 => (200, s2)

/-- Looking up the key just written returns the written value. -/
theorem lookupKey_upsertKey_self {β : Type} (s : List (String × β)) (k : String) (v : β) :
    lookupKey (upsertKey s k v) k = some v := by
  induction s with
  | nil => simp [upsertKey, lookupKey]
  | cons p rest ih =>
    obtain ⟨a, b⟩ := p
    by_cases h : a = k
    · simp [upsertKey, lookupKey, h]
    · simp [upsertKey, lookupKey, h, ih]

/-- Writing one key leaves lookups of other keys unchanged. -/
theorem lookupKey_upsertKey_ne {β : Type} (s : List (String × β)) (k k2 : String) (v : β)
    (hne : k ≠ k2) : lookupKey (upsertKey s k v) k2 = lookupKey s k2 := by
  induction s with
  | nil => simp [upsertKey, lookupKey, hne]
  | cons p rest ih =>
    obtain ⟨a, b⟩ := p
    by_cases h : a = k
    · subst h
      simp [upsertKey, lookupKey, hne]
    · simp [upsertKey, lookupKey, h, ih]

/-- The written value occurs among the values after an upsert. -/
theorem mem_map_snd_upsertKey {β : Type} (s : List (String × β)) (k : String) (v : β) :
    v ∈ (upsertKey s k v).map Prod.snd := by
  induction s with
  | nil => simp [upsertKey]
  | cons p rest ih =>
    obtain ⟨a, b⟩ := p
    by_cases h : a = k
    · simp [upsertKey, h]
    · simp only [upsertKey, if_neg h, List.map_cons, List.mem_cons]
      exact Or.inr ih

/-- Re-upserting the same key with the same value is a no-op. -/
theorem upsertKey_upsertKey_same {β : Type} (s : List (String × β)) (k : String) (v : β) :
    upsertKey (upsertKey s k v) k v = upsertKey s k v := by
  induction s with
  | nil => simp [upsertKey]
  | cons p rest ih =>
    obtain ⟨a, b⟩ := p
    by_cases h : a = k
    · simp [upsertKey, h]
    · simp [upsertKey, h, ih]

/-- After erasing a key, looking it up fails. -/
theorem lookupKey_eraseKey_self {β : Type} (s : List (String × β)) (k : String) :
    lookupKey (eraseKey s k) k = none := by
  induction s with
  | nil => simp [eraseKey, lookupKey]
  | cons p rest ih =>
    obtain ⟨a, b⟩ := p
    by_cases h : a = k
    · simp [eraseKey, h, ih]
    · simp [eraseKey, lookupKey, h, ih]

/-- Every entry surviving an erase has a different key. -/
theorem key_ne_of_mem_eraseKey {β : Type} (s : List (String × β)) (k : String) :
    ∀ p ∈ eraseKey s k, p.1 ≠ k := by
  induction s with
  | nil => simp [eraseKey]
  | cons q rest ih =>
    obtain ⟨a, b⟩ := q
    by_cases h : a = k
    · simpa [eraseKey, h] using ih
    · intro p hp
      simp only [eraseKey, if_neg h, List.mem_cons] at hp
      rcases hp with rfl | hp
      · exact h
      · exact ih p hp

/-- Erasing only removes entries: survivors were present before. -/
theorem mem_of_mem_eraseKey {β : Type} (s : List (String × β)) (k : String) :
    ∀ p ∈ eraseKey s k, p ∈ s := by
  induction s with
  | nil => simp [eraseKey]
  | cons q rest ih =>
    obtain ⟨a, b⟩ := q
    by_cases h : a = k
    · intro p hp
      simp only [eraseKey, if_pos h] at hp
      exact List.mem_cons_of_mem _ (ih p hp)
    · intro p hp
      simp only [eraseKey, if_neg h, List.mem_cons] at hp
      rcases hp with rfl | hp
      · exact List.mem_cons_self _ _
      · exact List.mem_cons_of_mem _ (ih p hp)

/-- `applyUpdate` never touches `id` or `createdAt`, and leaves `text`
(resp. `completed`) alone when the patch omits it. -/
theorem applyUpdate_frame (req : TaskUpdateRequest) (t : Task) :
    (applyUpdate req t).id = t.id ∧
    (applyUpdate req t).createdAt = t.createdAt ∧
    (req.text = none → (applyUpdate req t).text = t.text) ∧
    (req.completed = none → (applyUpdate req t).completed = t.completed) := by
  obtain ⟨txt, cpl⟩ := req
  cases txt <;> cases cpl <;>
    refine ⟨rfl, rfl, ?_, ?_⟩ <;> intro h <;> first | rfl | exact Option.noConfusion h

/-- Applying the same patch twice is the same as applying it once. -/
theorem applyUpdate_idem (req : TaskUpdateRequest) (t : Task) :
    applyUpdate req (applyUpdate req t) = applyUpdate req t := by
  obtain ⟨txt, cpl⟩ := req
  cases txt <;> cases cpl <;> rfl

/-- Claim C1, counterexample: on the empty bucket the task id "a" is absent,
yet `GCSStorage.UpdateTask` succeeds (it overwrites via CreateTask) instead
of failing with a NotFound-class error. -/
theorem gcs_update_absent_succeeds_cex :
    lookupKey ([] : GCSStorage) (objectName "a") = none ∧
    GCSStorage.UpdateTask [] (Task.mk "a" "x" false 0) =
      Except.ok [(objectName "a", Blob.valid (Task.mk "a" "x" false 0))] :=
  ⟨rfl, rfl⟩

/-- Claim C1, amended: the in-memory variant's UpdateTask on an absent id
fails with the NotFound error "task not found", but the object-storage
variant's UpdateTask never checks existence: on any bucket it succeeds,
writing the object (update = create-by-overwrite). -/
theorem update_absent_notfound_amended :
    (∀ (s : InMemoryStorage) (t : Task), lookupKey s t.id = none →
        InMemoryStorage.UpdateTask s t = Except.error "task not found") ∧
    (∀ (g : GCSStorage) (t : Task),
        GCSStorage.UpdateTask g t =
          Except.ok (upsertKey g (objectName t.id) (Blob.valid t))) := by
  constructor
  · intro s t h
    simp [InMemoryStorage.UpdateTask, h]
  · intro g t
    rfl

/-- Claim C1, witness for the amended theorem at a concrete input. -/
theorem update_absent_notfound_amended_witness :
    InMemoryStorage.UpdateTask [] (Task.mk "a" "x" false 0) =
      Except.error "task not found" :=
  update_absent_notfound_amended.1 [] (Task.mk "a" "x" false 0) rfl

/-- Claim C2: the GCS variant's GetTask fails both when the object is absent
and when the stored blob does not decode; in both cases the error is not
permission-class and the update endpoint surfaces it as 404 (NotFound). -/
theorem gcs_get_notfound_class :
    ∀ (g : GCSStorage) (taskID : String) (req : TaskUpdateRequest),
      (lookupKey g (objectName taskID) = none ∨
        lookupKey g (objectName taskID) = some Blob.corrupt) →
      (∃ e, GCSStorage.GetTask g taskID = Except.error e ∧
        isPermissionError e = false) ∧
      (updateTask gcsBackend g taskID (some req)).1 = 404 := by
  intro g taskID req h
  rcases h with h | h
  · refine ⟨⟨"task not found", ?_, by decide⟩, ?_⟩
    · simp [GCSStorage.GetTask, h]
    · simp [updateTask, gcsBackend, GCSStorage.GetTask, h]
      decide
  · refine ⟨⟨"error decoding task: invalid JSON", ?_, by decide⟩, ?_⟩
    · simp [GCSStorage.GetTask, h]
    · simp [updateTask, gcsBackend, GCSStorage.GetTask, h]
      decide

/-- Claim C2, witness: the empty bucket at id "a". -/
theorem gcs_get_notfound_class_witness :
    (∃ e, GCSStorage.GetTask ([] : GCSStorage) "a" = Except.error e ∧
      isPermissionError e = false) ∧
    (updateTask gcsBackend [] "a" (some (TaskUpdateRequest.mk none none))).1 = 404 :=
  gcs_get_notfound_class [] "a" (TaskUpdateRequest.mk none none) (Or.inl rfl)

/-- Claim C4: a create request whose text is empty is answered 400 and the
storage state is returned untouched, for any backend. -/
theorem create_empty_text_rejected :
    ∀ {σ : Type} (B : StorageBackend σ) (s : σ) (req : TaskRequest)
      (newID : String) (now : Nat),
      req.text = "" → createTask B s (some req) newID now = (400, s) := by
  intro σ B s req newID now h
  simp [createTask, h]

/-- Claim C4, witness: empty-text create against the empty in-memory store. -/
theorem create_empty_text_rejected_witness :
    createTask inMemoryBackend [] (some (TaskRequest.mk "" false)) "id1" 0 =
      (400, ([] : InMemoryStorage)) :=
  create_empty_text_rejected inMemoryBackend [] (TaskRequest.mk "" false) "id1" 0 rfl

/-- Claim C5: creating a task in the in-memory backend succeeds, an immediate
get of its id returns the identical task, and the task occurs in a
subsequent list. -/
theorem inmem_create_roundtrip :
    ∀ (s : InMemoryStorage) (t : Task),
      ∃ s2, InMemoryStorage.CreateTask s t = Except.ok s2 ∧
        InMemoryStorage.GetTask s2 t.id = Except.ok t ∧
        ∃ l, InMemoryStorage.ListTasks s2 = Except.ok l ∧ t ∈ l := by
  intro s t
  refine ⟨upsertKey s t.id t, rfl, ?_, (upsertKey s t.id t).map Prod.snd, rfl, ?_⟩
  · simp [InMemoryStorage.GetTask, lookupKey_upsertKey_self]
  · exact mem_map_snd_upsertKey s t.id t

/-- Claim C3, counterexample: with a corrupt object stored under task id "a"
(so the id is present, not absent), an update request with a parsable body is
answered 404. -/
theorem update_404_on_present_corrupt_cex :
    lookupKey ([(objectName "a", Blob.corrupt)] : GCSStorage) (objectName "a") =
      some Blob.corrupt ∧
    (updateTask gcsBackend [(objectName "a", Blob.corrupt)] "a"
      (some (TaskUpdateRequest.mk none none))).1 = 404 := by
  constructor
  · rfl
  · decide

/-- Claim C3, amended: on a parsable body the update endpoint answers 404
exactly when the backend's get phase fails — for the in-memory variant exactly
when the id is absent; for the object-storage variant when the object is
absent or its blob does not decode (a decode failure thus also yields 404,
and an update-phase failure never does). -/
theorem update_status_404_iff_amended :
    (∀ (s : InMemoryStorage) (taskID : String) (req : TaskUpdateRequest),
        (updateTask inMemoryBackend s taskID (some req)).1 = 404 ↔
          lookupKey s taskID = none) ∧
    (∀ (g : GCSStorage) (taskID : String) (req : TaskUpdateRequest),
        (updateTask gcsBackend g taskID (some req)).1 = 404 ↔
          (lookupKey g (objectName taskID) = none ∨
            lookupKey g (objectName taskID) = some Blob.corrupt)) := by
  constructor
  · intro s taskID req
    cases h : lookupKey s taskID with
    | none =>
      simp only [updateTask, inMemoryBackend, InMemoryStorage.GetTask, h]
      norm_num
      decide
    | some t =>
      simp only [updateTask, inMemoryBackend, InMemoryStorage.GetTask, h,
        InMemoryStorage.UpdateTask]
      cases h2 : lookupKey s (applyUpdate req t).id with
      | none => simp [h2]; decide
      | some w => simp [h2]
  · intro g taskID req
    cases h : lookupKey g (objectName taskID) with
    | none =>
      simp only [updateTask, gcsBackend, GCSStorage.GetTask, h]
      norm_num
      decide
    | some b =>
      cases b with
      | valid t =>
        simp [updateTask, gcsBackend, GCSStorage.GetTask, h,
          GCSStorage.UpdateTask, GCSStorage.CreateTask]
      | corrupt =>
        simp only [updateTask, gcsBackend, GCSStorage.GetTask, h]
        norm_num
        try trivial
        try decide

/-- Claim C6: deleting a present id from the in-memory store succeeds, and on
the resulting state get, update and delete of that id all fail with the
NotFound error, and no task with that id occurs in a list. The hypothesis
that every entry's key equals its task's id holds for every state reachable
through the backend operations, which always key a task by its id. -/
theorem inmem_delete_removes :
    ∀ (s : InMemoryStorage) (taskID : String),
      (∀ p ∈ s, p.1 = p.2.id) →
      lookupKey s taskID ≠ none →
      ∃ s2, InMemoryStorage.DeleteTask s taskID = Except.ok s2 ∧
        InMemoryStorage.GetTask s2 taskID = Except.error "task not found" ∧
        (∀ t : Task, t.id = taskID →
          InMemoryStorage.UpdateTask s2 t = Except.error "task not found") ∧
        InMemoryStorage.DeleteTask s2 taskID = Except.error "task not found" ∧
        ∃ l, InMemoryStorage.ListTasks s2 = Except.ok l ∧
          ∀ t ∈ l, t.id ≠ taskID := by
  intro s taskID hwf hpres
  cases h : lookupKey s taskID with
  | none => exact absurd h hpres
  | some v =>
    refine ⟨eraseKey s taskID, ?_, ?_, ?_, ?_, ?_⟩
    · simp [InMemoryStorage.DeleteTask, h]
    · simp [InMemoryStorage.GetTask, lookupKey_eraseKey_self]
    · intro t ht
      rw [InMemoryStorage.UpdateTask, ht, lookupKey_eraseKey_self]
    · simp [InMemoryStorage.DeleteTask, lookupKey_eraseKey_self]
    · refine ⟨(eraseKey s taskID).map Prod.snd, rfl, ?_⟩
      intro t ht
      rcases List.mem_map.mp ht with ⟨p, hp, hpt⟩
      have h1 : p.1 ≠ taskID := key_ne_of_mem_eraseKey s taskID p hp
      have h2 : p.1 = p.2.id := hwf p (mem_of_mem_eraseKey s taskID p hp)
      rw [hpt] at h2
      rw [← h2]
      exact h1

/-- Claim C6, witness: delete the task stored at id "a" in a one-task store. -/
theorem inmem_delete_removes_witness :
    ∃ s2, InMemoryStorage.DeleteTask [("a", Task.mk "a" "x" false 0)] "a" =
        Except.ok s2 ∧
      InMemoryStorage.GetTask s2 "a" = Except.error "task not found" ∧
      (∀ t : Task, t.id = "a" →
        InMemoryStorage.UpdateTask s2 t = Except.error "task not found") ∧
      InMemoryStorage.DeleteTask s2 "a" = Except.error "task not found" ∧
      ∃ l, InMemoryStorage.ListTasks s2 = Except.ok l ∧ ∀ t ∈ l, t.id ≠ "a" :=
  inmem_delete_removes [("a", Task.mk "a" "x" false 0)] "a"
    (by intro p hp; rw [List.mem_singleton.mp hp]) (by decide)

/-- Claim C7: running the update endpoint twice with the same id and the same
partial patch gives the same response and the same in-memory storage state as
running it once. -/
theorem inmem_update_idempotent :
    ∀ (s : InMemoryStorage) (taskID : String) (req : TaskUpdateRequest),
      updateTask inMemoryBackend
        (updateTask inMemoryBackend s taskID (some req)).2 taskID (some req) =
        updateTask inMemoryBackend s taskID (some req) := by
  intro s taskID req
  cases h : lookupKey s taskID with
  | none =>
    simp [updateTask, inMemoryBackend, InMemoryStorage.GetTask, h]
  | some t =>
    cases h2 : lookupKey s (applyUpdate req t).id with
    | none =>
      simp [updateTask, inMemoryBackend, InMemoryStorage.GetTask, h,
        InMemoryStorage.UpdateTask, h2]
    | some w =>
      have hfst : updateTask inMemoryBackend s taskID (some req) =
          (200, upsertKey s (applyUpdate req t).id (applyUpdate req t)) := by
        simp [updateTask, inMemoryBackend, InMemoryStorage.GetTask, h,
          InMemoryStorage.UpdateTask, h2]
      rw [hfst]
      by_cases hk : (applyUpdate req t).id = taskID
      · have hlook : lookupKey (upsertKey s (applyUpdate req t).id (applyUpdate req t))
            taskID = some (applyUpdate req t) := by
          rw [← hk]
          exact lookupKey_upsertKey_self s (applyUpdate req t).id (applyUpdate req t)
        simp only [updateTask, inMemoryBackend, InMemoryStorage.GetTask, hlook,
          InMemoryStorage.UpdateTask, applyUpdate_idem, lookupKey_upsertKey_self,
          upsertKey_upsertKey_same]
      · have hlook : lookupKey (upsertKey s (applyUpdate req t).id (applyUpdate req t))
            taskID = some t := by
          rw [lookupKey_upsertKey_ne s (applyUpdate req t).id taskID (applyUpdate req t) hk]
          exact h
        simp only [updateTask, inMemoryBackend, InMemoryStorage.GetTask, hlook,
          InMemoryStorage.UpdateTask, lookupKey_upsertKey_self,
          upsertKey_upsertKey_same]

/-- Claim C8: the merge step of the update handler never changes a task's id
or createdAt, and leaves text (resp. completed) unchanged whenever the patch
omits that field; consequently a 200 update stores exactly the merged task
`applyUpdate req existing`. -/
theorem update_unsupplied_fields_unchanged :
    ∀ (req : TaskUpdateRequest) (t : Task),
      (applyUpdate req t).id = t.id ∧
      (applyUpdate req t).createdAt = t.createdAt ∧
      (req.text = none → (applyUpdate req t).text = t.text) ∧
      (req.completed = none → (applyUpdate req t).completed = t.completed) ∧
      (∀ (s : InMemoryStorage) (taskID : String) (s2 : InMemoryStorage),
        InMemoryStorage.GetTask s taskID = Except.ok t →
        updateTask inMemoryBackend s taskID (some req) = (200, s2) →
        s2 = upsertKey s (applyUpdate req t).id (applyUpdate req t)) := by
  intro req t
  obtain ⟨h1, h2, h3, h4⟩ := applyUpdate_frame req t
  refine ⟨h1, h2, h3, h4, ?_⟩
  intro s taskID s2 hget hupd
  have hlk : lookupKey s taskID = some t := by
    rw [InMemoryStorage.GetTask] at hget
    cases hl : lookupKey s taskID with
    | none => rw [hl] at hget; exact Except.noConfusion hget
    | some v =>
      rw [hl] at hget
      rw [Except.ok.injEq] at hget
      rw [hget]
  rw [updateTask] at hupd
  simp only [inMemoryBackend, InMemoryStorage.GetTask, hlk,
    InMemoryStorage.UpdateTask] at hupd
  cases hl2 : lookupKey s (applyUpdate req t).id with
  | none =>
    rw [hl2] at hupd
    simp [isPermissionError_task_not_found] at hupd
  | some w =>
    rw [hl2] at hupd
    have := congrArg Prod.snd hupd
    simp at this
    rw [← this]

/-- Claim C8, witness: the empty patch leaves every field of a concrete task
unchanged. -/
theorem update_unsupplied_fields_unchanged_witness :
    (applyUpdate (TaskUpdateRequest.mk none none) (Task.mk "a" "x" true 5)).id =
        (Task.mk "a" "x" true 5).id ∧
    (applyUpdate (TaskUpdateRequest.mk none none) (Task.mk "a" "x" true 5)).text =
        (Task.mk "a" "x" true 5).text ∧
    (applyUpdate (TaskUpdateRequest.mk none none) (Task.mk "a" "x" true 5)).completed =
        (Task.mk "a" "x" true 5).completed :=
  ⟨(update_unsupplied_fields_unchanged (TaskUpdateRequest.mk none none)
      (Task.mk "a" "x" true 5)).1,
   (update_unsupplied_fields_unchanged (TaskUpdateRequest.mk none none)
      (Task.mk "a" "x" true 5)).2.2.1 rfl,
   (update_unsupplied_fields_unchanged (TaskUpdateRequest.mk none none)
      (Task.mk "a" "x" true 5)).2.2.2.1 rfl⟩

/-- Claim C9: an update that supplies text = "" on a present id is not
rejected: the endpoint answers 200 and the stored task's text is empty. -/
theorem inmem_update_blank_text :
    ∀ (s : InMemoryStorage) (taskID : String) (t : Task) (cpl : Option Bool),
      lookupKey s taskID = some t → t.id = taskID →
      (updateTask inMemoryBackend s taskID
        (some (TaskUpdateRequest.mk (some "") cpl))).1 = 200 ∧
      ∃ t2, lookupKey (updateTask inMemoryBackend s taskID
          (some (TaskUpdateRequest.mk (some "") cpl))).2 taskID = some t2 ∧
        t2.text = "" := by
  intro s taskID t cpl hlk hid
  have hid2 : (applyUpdate (TaskUpdateRequest.mk (some "") cpl) t).id = taskID := by
    rw [(applyUpdate_frame (TaskUpdateRequest.mk (some "") cpl) t).1]
    exact hid
  have htext : (applyUpdate (TaskUpdateRequest.mk (some "") cpl) t).text = "" := by
    cases cpl <;> rfl
  have hres : updateTask inMemoryBackend s taskID
      (some (TaskUpdateRequest.mk (some "") cpl)) =
      (200, upsertKey s (applyUpdate (TaskUpdateRequest.mk (some "") cpl) t).id
        (applyUpdate (TaskUpdateRequest.mk (some "") cpl) t)) := by
    simp only [updateTask, inMemoryBackend, InMemoryStorage.GetTask, hlk,
      InMemoryStorage.UpdateTask, hid2, hlk]
  rw [hres]
  refine ⟨rfl, applyUpdate (TaskUpdateRequest.mk (some "") cpl) t, ?_, htext⟩
  rw [← hid2]
  exact lookupKey_upsertKey_self s _ _

/-- Claim C9, witness: blanking the text of the task stored at id "a". -/
theorem inmem_update_blank_text_witness :
    (updateTask inMemoryBackend [("a", Task.mk "a" "x" false 0)] "a"
      (some (TaskUpdateRequest.mk (some "") none))).1 = 200 ∧
    ∃ t2, lookupKey (updateTask inMemoryBackend [("a", Task.mk "a" "x" false 0)] "a"
        (some (TaskUpdateRequest.mk (some "") none))).2 "a" = some t2 ∧
      t2.text = "" :=
  inmem_update_blank_text [("a", Task.mk "a" "x" false 0)] "a"
    (Task.mk "a" "x" false 0) none (by decide) rfl

/-- Claim C10: every error any in-memory operation returns carries the message
"task not found" (list and create never fail), that message is not
permission-class, and hence none of the four handlers ever answers 403 when
the in-memory backend is selected. -/
theorem inmem_no_permission_responses :
    (∀ (s : InMemoryStorage) (t : Task) (e : String),
        InMemoryStorage.UpdateTask s t = Except.error e → e = "task not found") ∧
    (∀ (s : InMemoryStorage) (taskID e : String),
        InMemoryStorage.DeleteTask s taskID = Except.error e → e = "task not found") ∧
    (∀ (s : InMemoryStorage) (taskID e : String),
        InMemoryStorage.GetTask s taskID = Except.error e → e = "task not found") ∧
    (∀ (s : InMemoryStorage) (e : String),
        InMemoryStorage.ListTasks s ≠ Except.error e) ∧
    (∀ (s : InMemoryStorage) (t : Task) (e : String),
        InMemoryStorage.CreateTask s t ≠ Except.error e) ∧
    isPermissionError "task not found" = false ∧
    (∀ (s : InMemoryStorage) (body : Option TaskRequest) (newID : String) (now : Nat),
        (createTask inMemoryBackend s body newID now).1 ≠ 403) ∧
    (∀ (s : InMemoryStorage) (taskID : String) (body : Option TaskUpdateRequest),
        (updateTask inMemoryBackend s taskID body).1 ≠ 403) ∧
    (∀ (s : InMemoryStorage) (taskID : String),
        (deleteTask inMemoryBackend s taskID).1 ≠ 403) ∧
    (∀ (s : InMemoryStorage), getTasks inMemoryBackend s ≠ 403) := by
  refine ⟨?_, ?_, ?_, ?_, ?_, isPermissionError_task_not_found, ?_, ?_, ?_, ?_⟩
  · intro s t e h
    rw [InMemoryStorage.UpdateTask] at h
    cases hl : lookupKey s t.id with
    | none => rw [hl] at h; simp at h; exact h.symm
    | some v => rw [hl] at h; exact Except.noConfusion h
  · intro s taskID e h
    rw [InMemoryStorage.DeleteTask] at h
    cases hl : lookupKey s taskID with
    | none => rw [hl] at h; simp at h; exact h.symm
    | some v => rw [hl] at h; exact Except.noConfusion h
  · intro s taskID e h
    rw [InMemoryStorage.GetTask] at h
    cases hl : lookupKey s taskID with
    | none => rw [hl] at h; simp at h; exact h.symm
    | some v => rw [hl] at h; exact Except.noConfusion h
  · intro s e h
    exact Except.noConfusion h
  · intro s t e h
    exact Except.noConfusion h
  · intro s body newID now
    cases body with
    | none => simp [createTask]
    | some req =>
      by_cases ht : req.text = ""
      · simp [createTask, ht]
      · simp [createTask, ht, inMemoryBackend, InMemoryStorage.CreateTask]
  · intro s taskID body
    cases body with
    | none => simp [updateTask]
    | some req =>
      cases hl : lookupKey s taskID with
      | none =>
        simp [updateTask, inMemoryBackend, InMemoryStorage.GetTask, hl,
          isPermissionError_task_not_found]
      | some t =>
        cases hl2 : lookupKey s (applyUpdate req t).id with
        | none =>
          simp [updateTask, inMemoryBackend, InMemoryStorage.GetTask, hl,
            InMemoryStorage.UpdateTask, hl2, isPermissionError_task_not_found]
        | some w =>
          simp [updateTask, inMemoryBackend, InMemoryStorage.GetTask, hl,
            InMemoryStorage.UpdateTask, hl2]
  · intro s taskID
    cases hl : lookupKey s taskID with
    | none =>
      simp [deleteTask, inMemoryBackend, InMemoryStorage.DeleteTask, hl,
        isPermissionError_task_not_found]
    | some v =>
      simp [deleteTask, inMemoryBackend, InMemoryStorage.DeleteTask, hl]
  · intro s
    simp [getTasks, inMemoryBackend, InMemoryStorage.ListTasks]

/-- Claim C10, witness: an update against the empty in-memory store returns the
NotFound message, and the update endpoint answers something other than 403. -/
theorem inmem_no_permission_responses_witness :
    ("task not found" : String) = "task not found" ∧
    (updateTask inMemoryBackend ([] : InMemoryStorage) "a" none).1 ≠ 403 :=
  ⟨inmem_no_permission_responses.1 [] (Task.mk "a" "x" false 0) "task not found" rfl,
   inmem_no_permission_responses.2.2.2.2.2.2.2.1 [] "a" none⟩

end TodoApp
